import Mathlib

/-!
Verification of the process-supervision core of `nonebot-plugin-gocqhttp`
(`nonebot_plugin_gocqhttp/process/process.py`).

The development shallowly embeds the pieces of the module that the checked
properties talk about:

* the registration fragment at the top of `GoCQProcess.__init__` together
  with the module-level directory `REGISTERED_PROCESSES`;
* the log-line grammar `LOG_REGEX` and the construction of `ProcessLog`
  records (pydantic validates the captured timestamp as a `datetime`, so
  record construction is fallible and is embedded as `Except`);
* the blocking reader `_daemon_thread_runner` (one spawn-and-read run) and
  the restart loop `daemon_thread_runner` (embedded with explicit fuel so
  the unbounded `max_restarts = -1` configuration stays representable);
* `status` (psutil is embedded as an explicit OS process table: looking up
  a pid that the table no longer lists raises `NoSuchProcess`, which is
  exactly the behaviour of `psutil.Process`);
* `listen_log` over the listener set.

Machine integers do not overflow in the modelled fragment (Python integers
are unbounded), so counters are `Nat` and exit codes are `Int`.  The regex
classes `\d` and `[A-Z]` are modelled as the ASCII ranges, and `$` accepts
either end of input or one trailing newline, as in Python `re`.  Wall-clock
effects (`sleep`, default timestamps) carry no data that the properties
mention; the default timestamp is the abstract `LogTime.captureTime`.
-/

/-- The slice of `AccountConfig` that the process module reads: only the
`uin` key is consulted by registration and by the loop. -/
structure AccountConfig where
  uin : Nat
deriving DecidableEq

/-! ## Supervisor directory (`REGISTERED_PROCESSES` and `GoCQProcess.__init__`) -/

/-- Errors that the registration fragment of `GoCQProcess.__init__` can
raise: the `ValueError` for a duplicate uin, and the `AttributeError`
produced by reading `self.account` before that attribute is assigned. -/
inductive InitError where
  | attributeError
  | alreadyRegistered
deriving DecidableEq

/-- The registration fragment of `GoCQProcess.__init__`:

```
if account.uin not in REGISTERED_PROCESSES:
    REGISTERED_PROCESSES[self.account.uin] = self
else:
    raise ValueError(...)
```

`REGISTERED_PROCESSES` is embedded as its key set (a list of uins); the
mapped values are the instances themselves and are never consulted by the
modelled code.  `selfAccount` is the value of the instance attribute
`self.account` at this point (`none` when the attribute does not exist
yet).  The result is the directory after the statement together with the
exception raised, if any; on an exception the dictionary is returned
unchanged because the subscript assignment evaluates `self.account.uin`
before inserting anything. -/
def initRegistration (accountUin : Nat) (selfAccount : Option Nat)
    (reg : List Nat) : List Nat × Option InitError :=
  if accountUin ∉ reg then
    match selfAccount with
    | none => (reg, some InitError.attributeError)
    | some u => (u :: reg, none)
  else
    (reg, some InitError.alreadyRegistered)

/-- `GoCQProcess.__init__` runs the registration fragment before the
statement `self.account = account`; a fresh instance has no `account`
attribute (the class only declares `process`), so `selfAccount` is
`none`. -/
def gocqprocess_init_register (account : AccountConfig) (reg : List Nat) :
    List Nat × Option InitError :=
  initRegistration account.uin none reg

/-! ## Log grammar (`LOG_REGEX`) -/

/-- The six captured timestamp fields of `\d{4}-\d\d-\d\d \d\d:\d\d:\d\d`. -/
structure Timestamp6 where
  year : Nat
  month : Nat
  day : Nat
  hour : Nat
  minute : Nat
  second : Nat
deriving DecidableEq

/-- Numeric value of one regex digit. -/
def digitVal (c : Char) : Nat := c.toNat - ('0').toNat

/-- Reads exactly `n` regex digits (`\d{n}`), accumulating their decimal
value, and returns the remaining input. -/
def readDigits : Nat → Nat → List Char → Option (Nat × List Char)
  | 0, acc, cs => some (acc, cs)
  | n + 1, acc, c :: cs =>
      if c.isDigit then readDigits n (acc * 10 + digitVal c) cs else none
  | _ + 1, _, [] => none

/-- Consumes one fixed literal character. -/
def expectChar (c : Char) : List Char → Option (List Char)
  | [] => none
  | d :: cs => if d = c then some cs else none

/-- The timestamp group `(\d{4}-\d\d-\d\d \d\d:\d\d:\d\d)`. -/
def parseTimestamp (cs : List Char) : Option (Timestamp6 × List Char) :=
  match readDigits 4 0 cs with
  | none => none
  | some (y, cs1) =>
  match expectChar '-' cs1 with
  | none => none
  | some cs2 =>
  match readDigits 2 0 cs2 with
  | none => none
  | some (mo, cs3) =>
  match expectChar '-' cs3 with
  | none => none
  | some cs4 =>
  match readDigits 2 0 cs4 with
  | none => none
  | some (dy, cs5) =>
  match expectChar ' ' cs5 with
  | none => none
  | some cs6 =>
  match readDigits 2 0 cs6 with
  | none => none
  | some (hr, cs7) =>
  match expectChar ':' cs7 with
  | none => none
  | some cs8 =>
  match readDigits 2 0 cs8 with
  | none => none
  | some (mi, cs9) =>
  match expectChar ':' cs9 with
  | none => none
  | some cs10 =>
  match readDigits 2 0 cs10 with
  | none => none
  | some (se, cs11) => some (⟨y, mo, dy, hr, mi, se⟩, cs11)

/-- The maximal run of uppercase letters at the head of the input, and the
rest.  The lazy group `[A-Z]+?` is followed by the literal `]: `, and `]`
is not an uppercase letter, so the lazy match succeeds exactly on the
maximal run. -/
def takeUpperRun : List Char → List Char × List Char
  | [] => ([], [])
  | c :: cs =>
      if c.isUpper then
        (c :: (takeUpperRun cs).1, (takeUpperRun cs).2)
      else ([], c :: cs)

/-- The tail group `(.*)$` of the pattern: `.` never matches a newline and
`$` matches at end of input or just before one trailing newline, so the
whole remainder matches exactly when it is newline-free, or newline-free
followed by one final newline (which is excluded from the group). -/
def matchMessage : List Char → Option (List Char)
  | [] => some []
  | c :: cs =>
      if c = '\n' then
        if cs = [] then some [] else none
      else (matchMessage cs).map (fun m => c :: m)

/-- `LOG_REGEX.match` on a list of characters: on success it yields the
captured timestamp fields, the level group and the message group. -/
def parseLineChars : List Char → Option (Timestamp6 × String × String)
  | '[' :: cs =>
    match parseTimestamp cs with
    | some (t, ']' :: ' ' :: '[' :: cs2) =>
      match takeUpperRun cs2 with
      | ([], _) => none
      | (c :: lvlRest, ']' :: ':' :: ' ' :: cs4) =>
        match matchMessage cs4 with
        | some msg => some (t, String.mk (c :: lvlRest), String.mk msg)
        | none => none
      | (_ :: _, _) => none
    | _ => none
  | _ => none

/-- `LOG_REGEX.match` on a string. -/
def parseLogLine (s : String) : Option (Timestamp6 × String × String) :=
  parseLineChars s.data

/-! ## `ProcessLog` records -/

/-- The `time` field of a `ProcessLog`: either the pydantic default
(`datetime.now()` at record creation, abstracted as `captureTime`) or the
datetime parsed from the captured timestamp group. -/
inductive LogTime where
  | captureTime
  | given (t : Timestamp6)
deriving DecidableEq

/-- The pydantic model `ProcessLog`. -/
structure ProcessLog where
  raw : String
  time : LogTime
  level : Option String
  message : Option String
deriving DecidableEq

deriving instance DecidableEq for Except

/-- The module-level set `LOG_LEVELS` (embedded as a list of its
elements). -/
def LOG_LEVELS : List String :=
  ["DEBUG", "INFO", "WARNING", "ERROR", "FATAL"]

/-- Validity of the captured timestamp as a `datetime`: pydantic feeds the
six captured fields to `datetime(...)`, which requires year 1..9999,
month 1..12, a day that exists in that month, and in-range time fields. -/
def isLeapYear (y : Nat) : Bool :=
  (y % 4 == 0 && y % 100 != 0) || y % 400 == 0

/-- Number of days of a month in the proleptic Gregorian calendar. -/
def daysInMonth (y m : Nat) : Nat :=
  if m == 2 then (if isLeapYear y then 29 else 28)
  else if m == 4 || m == 6 || m == 9 || m == 11 then 30
  else 31

/-- The range check performed by `datetime(...)` on the captured fields. -/
def validTimestamp (t : Timestamp6) : Bool :=
  decide (1 ≤ t.year ∧ t.year ≤ 9999 ∧ 1 ≤ t.month ∧ t.month ≤ 12 ∧
    1 ≤ t.day ∧ t.day ≤ daysInMonth t.year t.month ∧
    t.hour ≤ 23 ∧ t.minute ≤ 59 ∧ t.second ≤ 59)

/-- Construction of the `ProcessLog` for one (already stripped) output
line:

```
log_matched = LOG_REGEX.match(output)
log_model = (
    ProcessLog(raw=output, **log_matched.groupdict())
    if log_matched
    else ProcessLog(raw=output)
)
```

On a regex match, pydantic parses the captured `time` group as a
`datetime`; digits that pass the regex but denote no real calendar
datetime make `datetime(...)` raise, which surfaces as a pydantic
`ValidationError` from the constructor — hence the `Except`. -/
def mkProcessLog (raw : String) : Except Unit ProcessLog :=
  match parseLogLine raw with
  | none => Except.ok ⟨raw, LogTime.captureTime, none, none⟩
  | some (t, level, message) =>
      if validTimestamp t then
        Except.ok ⟨raw, LogTime.given t, some level, some message⟩
      else Except.error ()

/-! ## One spawn-and-read run (`GoCQProcess._daemon_thread_runner`) -/

/-- One run of `_daemon_thread_runner`, abstracted over the lines the
worker writes (already stripped, as the loop strips each line before any
other use) and the exit code the process handle reports once the stream
ends (including the terminate-and-wait path for a still-live process).
The counter argument is the supervisor's cumulative `log_counter`; it is
incremented for every line *before* the record is built, so a line whose
record construction raises is still counted.  The sentinel check and the
listener dispatch do not touch the modelled state.  The returned `Except`
is the run's outcome: `ok` with the exit code, or the propagated record
exception. -/
def runWorker : List String → Int → Nat → Nat × Except Unit Int
  | [], exitCode, log_counter => (log_counter, Except.ok exitCode)
  | line :: rest, exitCode, log_counter =>
      match mkProcessLog line with
      | Except.ok _ => runWorker rest exitCode (log_counter + 1)
      | Except.error e => (log_counter + 1, Except.error e)

/-- The observable outcome of one restart-loop iteration's run: a normal
return of `_daemon_thread_runner` with the exit code and the number of
lines counted, or an exception (from any point of the run) after that many
lines were counted. -/
inductive RunOutcome where
  | exit (code : Int) (logs : Nat)
  | raised (logs : Nat)
deriving DecidableEq

/-- Outcome of a run specified by its output lines and final exit code. -/
def runWorkerOutcome (lines : List String) (exitCode : Int) : RunOutcome :=
  match runWorker lines exitCode 0 with
  | (n, Except.ok c) => RunOutcome.exit c n
  | (n, Except.error _) => RunOutcome.raised n

/-! ## The restart loop (`daemon_thread_runner`) -/

/-- The supervisor state the restart loop mutates: the cumulative
`log_counter`, the `restarted` counter, and (as a ghost observation used
by the stated properties) the number of times `_daemon_thread_runner` was
entered. -/
structure LoopState where
  log_counter : Nat
  restarted : Nat
  spawns : Nat
deriving DecidableEq

/-- The body of one non-breaking loop iteration:

```
code = 0
try:
    code = self._daemon_thread_runner()
except Exception:
    logger.exception(...)
logger.warning(... code ...)
self.restarted += 1
sleep(self.restart_interval)
```

Returns the updated state and the effective `code` that the iteration
reports: on an exception the local stays at its initialiser `0`.
`self.restarted` is incremented unconditionally, after the run. -/
def iterBody (o : RunOutcome) (st : LoopState) : LoopState × Int :=
  match o with
  | RunOutcome.exit c l =>
      (⟨st.log_counter + l, st.restarted + 1, st.spawns + 1⟩, c)
  | RunOutcome.raised l =>
      (⟨st.log_counter + l, st.restarted + 1, st.spawns + 1⟩, 0)

/-- The restart loop `daemon_thread_runner`:

```
for restarted in count():
    if not self.daemon_thread_running:
        break
    if self.max_restarts >= 0 and restarted >= self.max_restarts:
        break
    <iteration body>
```

`flagAt k` is the value of the shared run flag `daemon_thread_running`
that the loop reads at the top of iteration `k` (the flag is written only
from `start`/`stop` on other threads); `outs k` is the outcome of the run
performed in iteration `k`.  The loop itself can run forever when
`max_restarts` is negative, so the embedding takes explicit fuel and
returns `none` when the fuel is exhausted before the loop breaks; every
property below supplies enough fuel for the loop to break on its own. -/
def daemon_thread_runner (fuel : Nat) (flagAt : Nat → Bool)
    (outs : Nat → RunOutcome) (max_restarts : Int) (k : Nat)
    (st : LoopState) : Option LoopState :=
  match fuel with
  | 0 => none
  | fuel + 1 =>
      if flagAt k = false then some st
      else if 0 ≤ max_restarts ∧ (k : Int) ≥ max_restarts then some st
      else daemon_thread_runner fuel flagAt outs max_restarts (k + 1)
        (iterBody (outs k) st).1

/-! ## `GoCQProcess.status` -/

/-- The `subprocess.Popen` handle state that `status` consults. -/
structure Handle where
  pid : Nat
  returncode : Option Int
deriving DecidableEq

/-- The fields `status` reads from one psutil `oneshot` query.  The two
float-valued fields (`cpu_percent`, `create_time`) are opaque to every
modelled property — `status` only passes them through — so they are
embedded as integers. -/
structure PsInfo where
  rss : Nat
  vms : Nat
  cpu_percent : Int
  create_time : Int
  status : String
deriving DecidableEq

/-- `RunningProcessInfo` (field order: the `BaseProcessInfo` fields, then
the running-only fields). -/
structure RunningProcessInfo where
  status : String
  total_logs : Nat
  restarts : Nat
  pid : Nat
  memory_used : Nat
  swap_used : Nat
  cpu_percent : Int
  start_time : Int
deriving DecidableEq

/-- `StoppedProcessInfo`. -/
structure StoppedProcessInfo where
  status : String
  total_logs : Nat
  restarts : Nat
  code : Int
deriving DecidableEq

/-- The union `ProcessInfo`. -/
inductive ProcessInfo where
  | running (i : RunningProcessInfo)
  | stopped (i : StoppedProcessInfo)
deriving DecidableEq

/-- The exceptions `status` can raise: the explicit
`RuntimeError("Process not started yet.")`, and psutil's `NoSuchProcess`
from `psutil.Process(pid)` when the OS process table no longer lists the
pid. -/
inductive StatusError where
  | notStarted
  | noSuchProcess
deriving DecidableEq

/-- `GoCQProcess.status`.  `process` is the handle attribute (`none`
before the first spawn), `table` is the OS process table that psutil
queries, and `log_counter`/`restarted` are the supervisor counters.  Note
that `psutil.Process(self.process.pid)` is constructed *before* the
branch on `returncode`, so a missing table entry raises in the stopped
branch as well. -/
def status (process : Option Handle) (table : Nat → Option PsInfo)
    (log_counter restarted : Nat) : Except StatusError ProcessInfo :=
  match process with
  | none => Except.error StatusError.notStarted
  | some p =>
    match table p.pid with
    | none => Except.error StatusError.noSuchProcess
    | some info =>
      match p.returncode with
      | none =>
          Except.ok (ProcessInfo.running
            ⟨info.status, log_counter, restarted, p.pid, info.rss,
              info.vms, info.cpu_percent, info.create_time⟩)
      | some code =>
          Except.ok (ProcessInfo.stopped
            ⟨info.status, log_counter, restarted, code⟩)

/-! ## `GoCQProcess.listen_log` -/

/-- `listen_log` adds the listener to the set `self.log_listeners` and
returns it.  The Python `set` is embedded as a duplicate-free list;
`set.add` inserts only when the value is not already present.  Listener
values are opaque, so the element type is a parameter. -/
def listen_log {α : Type} [DecidableEq α] (listener : α)
    (log_listeners : List α) : α × List α :=
  (listener,
    if listener ∈ log_listeners then log_listeners
    else listener :: log_listeners)

/-! ## Helper lemmas about the grammar -/

/-- Decimal value of a digit-character list, as accumulated by
`readDigits`. -/
def digitsVal (ds : List Char) : Nat :=
  ds.foldl (fun a c => a * 10 + digitVal c) 0

/-- The rendered timestamp section of a grammar-conforming line: four
digit characters, dash, two digits, dash, two digits, space, two digits,
colon, two digits, colon, two digits. -/
def tsChars (y mo dy hr mi se : List Char) : List Char :=
  y ++ '-' :: (mo ++ '-' :: (dy ++ ' ' :: (hr ++ ':' :: (mi ++ ':' :: se))))

/-- A full line of the grammar `[<timestamp>] [<LEVEL>]: <message>`. -/
def grammarLine (y mo dy hr mi se lvl msg : List Char) : List Char :=
  '[' :: (tsChars y mo dy hr mi se ++
    (']' :: ' ' :: '[' :: (lvl ++ (']' :: ':' :: ' ' :: msg))))

theorem readDigits_append (n : Nat) (ds rest : List Char) (acc : Nat)
    (hn : ds.length = n) (hd : ∀ c ∈ ds, c.isDigit = true) :
    readDigits n acc (ds ++ rest) =
      some (ds.foldl (fun a c => a * 10 + digitVal c) acc, rest) := by
  subst hn
  induction ds generalizing acc with
  | nil => rfl
  | cons c tail ih =>
      simp only [List.length_cons, List.cons_append, readDigits,
        List.foldl_cons]
      rw [hd c (by simp)]
      simp only [if_true]
      exact ih (acc * 10 + digitVal c) fun x hx => hd x (by simp [hx])

theorem expectChar_cons (c : Char) (cs : List Char) :
    expectChar c (c :: cs) = some cs := by
  simp [expectChar]

theorem parseTimestamp_tsChars (y mo dy hr mi se rest : List Char)
    (ly : y.length = 4) (lmo : mo.length = 2) (ldy : dy.length = 2)
    (lhr : hr.length = 2) (lmi : mi.length = 2) (lse : se.length = 2)
    (gy : ∀ c ∈ y, c.isDigit = true) (gmo : ∀ c ∈ mo, c.isDigit = true)
    (gdy : ∀ c ∈ dy, c.isDigit = true) (ghr : ∀ c ∈ hr, c.isDigit = true)
    (gmi : ∀ c ∈ mi, c.isDigit = true) (gse : ∀ c ∈ se, c.isDigit = true) :
    parseTimestamp (tsChars y mo dy hr mi se ++ rest) =
      some (⟨digitsVal y, digitsVal mo, digitsVal dy, digitsVal hr,
        digitsVal mi, digitsVal se⟩, rest) := by
  have e1 := readDigits_append 4 y
    ('-' :: (mo ++ '-' :: (dy ++ ' ' :: (hr ++ ':' :: (mi ++ ':' :: (se ++ rest))))))
    0 ly gy
  have e2 := readDigits_append 2 mo
    ('-' :: (dy ++ ' ' :: (hr ++ ':' :: (mi ++ ':' :: (se ++ rest))))) 0 lmo gmo
  have e3 := readDigits_append 2 dy
    (' ' :: (hr ++ ':' :: (mi ++ ':' :: (se ++ rest)))) 0 ldy gdy
  have e4 := readDigits_append 2 hr
    (':' :: (mi ++ ':' :: (se ++ rest))) 0 lhr ghr
  have e5 := readDigits_append 2 mi (':' :: (se ++ rest)) 0 lmi gmi
  have e6 := readDigits_append 2 se rest 0 lse gse
  simp only [tsChars, List.append_assoc, List.cons_append]
  simp only [parseTimestamp, e1, e2, e3, e4, e5, e6, expectChar_cons]
  simp [digitsVal]

theorem takeUpperRun_upper :
    ∀ cs : List Char, ∀ c ∈ (takeUpperRun cs).1, c.isUpper = true := by
  intro cs
  induction cs with
  | nil => simp [takeUpperRun]
  | cons d tail ih =>
      simp only [takeUpperRun]
      split
      · next h =>
          intro c hc
          rcases List.mem_cons.mp hc with h1 | h1
          · exact h1 ▸ h
          · exact ih c h1
      · simp

theorem takeUpperRun_append (u rest : List Char)
    (hu : ∀ c ∈ u, c.isUpper = true) :
    takeUpperRun (u ++ ']' :: rest) = (u, ']' :: rest) := by
  induction u with
  | nil =>
      simp [takeUpperRun, show (']').isUpper = false from by decide]
  | cons c tail ih =>
      have hc : c.isUpper = true := hu c (by simp)
      have ih2 := ih fun x hx => hu x (by simp [hx])
      simp [takeUpperRun, hc, ih2]

theorem matchMessage_no_newline (msg : List Char) (h : '\n' ∉ msg) :
    matchMessage msg = some msg := by
  induction msg with
  | nil => rfl
  | cons c tail ih =>
      have hc : ¬c = '\n' := fun hcc => h (by simp [hcc])
      simp only [matchMessage, if_neg hc]
      rw [ih fun hx => h (by simp [hx])]
      rfl

theorem parseLineChars_grammarLine (y mo dy hr mi se lvl msg : List Char)
    (ly : y.length = 4) (lmo : mo.length = 2) (ldy : dy.length = 2)
    (lhr : hr.length = 2) (lmi : mi.length = 2) (lse : se.length = 2)
    (gy : ∀ c ∈ y, c.isDigit = true) (gmo : ∀ c ∈ mo, c.isDigit = true)
    (gdy : ∀ c ∈ dy, c.isDigit = true) (ghr : ∀ c ∈ hr, c.isDigit = true)
    (gmi : ∀ c ∈ mi, c.isDigit = true) (gse : ∀ c ∈ se, c.isDigit = true)
    (hne : lvl ≠ []) (hup : ∀ c ∈ lvl, c.isUpper = true)
    (hnl : '\n' ∉ msg) :
    parseLineChars (grammarLine y mo dy hr mi se lvl msg) =
      some (⟨digitsVal y, digitsVal mo, digitsVal dy, digitsVal hr,
        digitsVal mi, digitsVal se⟩, String.mk lvl, String.mk msg) := by
  obtain ⟨c, lvl2, rfl⟩ := List.exists_cons_of_ne_nil hne
  have hts := parseTimestamp_tsChars y mo dy hr mi se
    (']' :: ' ' :: '[' :: ((c :: lvl2) ++ (']' :: ':' :: ' ' :: msg)))
    ly lmo ldy lhr lmi lse gy gmo gdy ghr gmi gse
  have htake := takeUpperRun_append (c :: lvl2) (':' :: ' ' :: msg) hup
  have hmsg := matchMessage_no_newline msg hnl
  simp only [grammarLine, parseLineChars, hts, htake, hmsg]

/-- Soundness of the level group: whatever `LOG_REGEX` captures as the
level is one or more uppercase letters. -/
theorem parseLineChars_level_upper (cs : List Char) (t : Timestamp6)
    (lvl msg : String) (hp : parseLineChars cs = some (t, lvl, msg)) :
    lvl.data ≠ [] ∧ ∀ c ∈ lvl.data, c.isUpper = true := by
  unfold parseLineChars at hp
  split at hp <;> try simp at hp
  split at hp <;> try simp at hp
  rename_i t2 cs2 heq2
  split at hp <;> try simp at hp
  rename_i c lvlRest cs4 heq3
  split at hp <;> try simp at hp
  rename_i msg0 hmsg0
  obtain ⟨h1, h2, h3⟩ := hp
  subst h2
  have hu := takeUpperRun_upper cs2
  rw [heq3] at hu
  exact ⟨List.cons_ne_nil c lvlRest, fun x hx => hu x hx⟩

/-- Level-group soundness lifted to strings. -/
theorem parseLogLine_level_upper (s : String) (t : Timestamp6)
    (lvl msg : String) (hp : parseLogLine s = some (t, lvl, msg)) :
    lvl.data ≠ [] ∧ ∀ c ∈ lvl.data, c.isUpper = true :=
  parseLineChars_level_upper s.data t lvl msg hp

/-! ## Settled properties -/

/-- C2: constructing a `GoCQProcess` for an account whose uin is not yet
registered raises (the subscript assignment reads `self.account` before
`self.account = account` has run, so attribute lookup fails) and leaves
`REGISTERED_PROCESSES` unchanged: a first-ever registration never
succeeds and never inserts an entry. -/
theorem C2_thm (account : AccountConfig) (reg : List Nat)
    (h : account.uin ∉ reg) :
    gocqprocess_init_register account reg =
      (reg, some InitError.attributeError) := by
  simp [gocqprocess_init_register, initRegistration, h]

theorem C2_witness :
    gocqprocess_init_register ⟨123⟩ [] = ([], some InitError.attributeError) :=
  C2_thm ⟨123⟩ [] (by decide)

/-- C7: evaluation of the registration fragment at the failing input.  A
duplicate registration does fail with the `ValueError` branch and leaves
the directory unchanged, but a registration for a uin that is absent from
the directory — the situation after `unregister` — raises the
`AttributeError` instead of succeeding, so re-registration never
succeeds. -/
theorem C7_eval :
    gocqprocess_init_register ⟨42⟩ [] = ([], some InitError.attributeError) ∧
    gocqprocess_init_register ⟨42⟩ [42, 7] =
      ([42, 7], some InitError.alreadyRegistered) := by
  constructor
  · rfl
  · rfl

/-- C10: `listen_log` returns its argument, and registering the same
callback value twice leaves the listener set exactly as after one
registration. -/
theorem C10_thm {α : Type} [DecidableEq α] (c : α) (s : List α) :
    (listen_log c s).1 = c ∧
    (listen_log c (listen_log c s).2).2 = (listen_log c s).2 := by
  refine ⟨rfl, ?_⟩
  by_cases h : c ∈ s
  · simp [listen_log, h]
  · simp [listen_log, h]

theorem C10_witness :
    (listen_log 3 [1, 2]).1 = 3 ∧
    (listen_log 3 (listen_log 3 [1, 2]).2).2 = (listen_log 3 [1, 2]).2 :=
  C10_thm 3 [1, 2]

/-- C6, amended: `status` before any spawn fails with the not-started
error; with a live handle (no exit code) whose pid the OS process table
lists, it returns a `Running` snapshot carrying that (positive) pid; with
an exited handle whose pid the table still lists, it returns a `Stopped`
snapshot carrying the observed exit code.  The table hypotheses are
necessary: `psutil.Process(pid)` is constructed before the exit-code
branch, so `status` raises `NoSuchProcess` in either branch once the pid
has left the process table. -/
theorem C6_amended_thm (table : Nat → Option PsInfo) (lc r : Nat) :
    status none table lc r = Except.error StatusError.notStarted ∧
    (∀ (p : Handle) (info : PsInfo), table p.pid = some info →
      p.returncode = none → 0 < p.pid →
      status (some p) table lc r =
        Except.ok (ProcessInfo.running
          ⟨info.status, lc, r, p.pid, info.rss, info.vms,
            info.cpu_percent, info.create_time⟩) ∧
      0 < p.pid) ∧
    (∀ (p : Handle) (info : PsInfo) (c : Int), table p.pid = some info →
      p.returncode = some c →
      status (some p) table lc r =
        Except.ok (ProcessInfo.stopped ⟨info.status, lc, r, c⟩)) := by
  refine ⟨rfl, ?_, ?_⟩
  · intro p info h1 h2 h3
    exact ⟨by simp [status, h1, h2], h3⟩
  · intro p info c h1 h2
    simp [status, h1, h2]

theorem C6_witness :
    status none (fun x => if x = 42 then some ⟨100, 200, 3, 4, "idle"⟩ else none)
        5 1 = Except.error StatusError.notStarted ∧
    status (some ⟨42, none⟩)
        (fun x => if x = 42 then some ⟨100, 200, 3, 4, "idle"⟩ else none) 5 1 =
      Except.ok (ProcessInfo.running ⟨"idle", 5, 1, 42, 100, 200, 3, 4⟩) ∧
    status (some ⟨42, some 9⟩)
        (fun x => if x = 42 then some ⟨100, 200, 3, 4, "idle"⟩ else none) 5 1 =
      Except.ok (ProcessInfo.stopped ⟨"idle", 5, 1, 9⟩) := by
  have h := C6_amended_thm
    (fun x => if x = 42 then some ⟨100, 200, 3, 4, "idle"⟩ else none) 5 1
  exact ⟨h.1,
    (h.2.1 ⟨42, none⟩ ⟨100, 200, 3, 4, "idle"⟩ (by decide) rfl (by decide)).1,
    h.2.2 ⟨42, some 9⟩ ⟨100, 200, 3, 4, "idle"⟩ 9 (by decide) rfl⟩

/-- C6, counterexample to the claim as stated: once the exited worker has
been reaped the OS process table no longer lists its pid, and `status`
then raises psutil's `NoSuchProcess` in the stopped case instead of
returning a `Stopped` snapshot, because `psutil.Process(self.process.pid)`
is evaluated before the `returncode` branch. -/
theorem C6_counterexample :
    status (some ⟨42, some 0⟩) (fun _ => none) 1 0 =
      Except.error StatusError.noSuchProcess := rfl

/-- C1, counterexample to the claim as stated: with `max_restarts = 0` the
budget check `restarted >= self.max_restarts` fires at the top of the very
first iteration, before any spawn, so the loop performs zero spawns and
counts zero log lines — not one spawn with one counted line and an
observed exit code. -/
theorem C1_counterexample :
    daemon_thread_runner 1 (fun _ => true)
        (fun _ => runWorkerOutcome ["[2024-01-01 00:00:00] [INFO]: ready"] 0)
        0 0 ⟨0, 0, 0⟩ ≠ some ⟨1, 0, 1⟩ := by
  decide

/-- C1, amended: with `maxRestarts = 0` and a worker that would emit the
single grammar line and exit with code 0, the restart loop breaks before
the first spawn: the worker is spawned zero times, zero restarts are
performed, the total log counter stays 0, and no exit code is ever
observed (the process handle is never created, so a later `status` call
still fails with the not-started error). -/
theorem C1_amended_thm :
    daemon_thread_runner 1 (fun _ => true)
        (fun _ => runWorkerOutcome ["[2024-01-01 00:00:00] [INFO]: ready"] 0)
        0 0 ⟨0, 0, 0⟩ = some ⟨0, 0, 0⟩ ∧
    status none (fun _ => none) 0 0 = Except.error StatusError.notStarted := by
  exact ⟨by decide, rfl⟩

/-- C4, counterexample to the claim as stated: with `maxRestarts = 2` the
budget check compares the number of already performed spawns against
`max_restarts` before each spawn, so the loop performs 2 total spawns,
not 3. -/
theorem C4_counterexample :
    (daemon_thread_runner 3 (fun _ => true)
        (fun _ => runWorkerOutcome ["garbage output"] 1) 2 0
        ⟨0, 0, 0⟩).map LoopState.spawns ≠ some 3 := by
  decide

/-- C4, amended: with `maxRestarts = 2`, `restartInterval = 0` and a
worker that each run emits the single non-grammar line `garbage output`
and exits with code 1, the loop performs 2 total spawns (the bounded
budget caps total spawns, first run included), counts 2 log lines, and
`restartsPerformed = 2` when the loop ends. -/
theorem C4_amended_thm :
    daemon_thread_runner 3 (fun _ => true)
        (fun _ => runWorkerOutcome ["garbage output"] 1) 2 0 ⟨0, 0, 0⟩ =
      some ⟨2, 2, 2⟩ := by
  decide

/-- C3, amended: for a bounded budget `m ≥ 0`, at the top of iteration `k`
(where the loop invariant ties `restartsPerformed` to the iteration
index): while the run flag reads true and `restartsPerformed < m`, the
loop performs one run and increments `restartsPerformed` by exactly 1 and
the spawn count by exactly 1, then proceeds to the next evaluation; once
`restartsPerformed = m` the loop breaks with no further spawn and no
further increment; and when the run flag reads false at the top of an
iteration the loop breaks with no spawn and no increment.  The increment
happens for every completed run, planned or unplanned — a run terminated
by `stop()` still increments the counter (see the counterexample). -/
theorem C3_amended_thm (fuel : Nat) (flagAt : Nat → Bool)
    (outs : Nat → RunOutcome) (m : Nat) (k : Nat) (st : LoopState)
    (hk : st.restarted = k) :
    (flagAt k = true → st.restarted < m →
      daemon_thread_runner (fuel + 1) flagAt outs (m : Int) k st =
        daemon_thread_runner fuel flagAt outs (m : Int) (k + 1)
          (iterBody (outs k) st).1 ∧
      (iterBody (outs k) st).1.restarted = st.restarted + 1 ∧
      (iterBody (outs k) st).1.spawns = st.spawns + 1) ∧
    (m ≤ st.restarted →
      daemon_thread_runner (fuel + 1) flagAt outs (m : Int) k st = some st) ∧
    (flagAt k = false →
      daemon_thread_runner (fuel + 1) flagAt outs (m : Int) k st = some st) := by
  refine ⟨?_, ?_, ?_⟩
  · intro hf hlt
    have hcond : ¬(0 ≤ (m : Int) ∧ ((k : Nat) : Int) ≥ (m : Int)) := by
      omega
    have hmk : ¬m ≤ k := by omega
    refine ⟨?_, ?_, ?_⟩
    · simp [daemon_thread_runner, hf, hcond, hmk]
    · cases houts : outs k <;> simp [iterBody, houts]
    · cases houts : outs k <;> simp [iterBody, houts]
  · intro hm
    have hcond : 0 ≤ (m : Int) ∧ ((k : Nat) : Int) ≥ (m : Int) := by
      omega
    have hmk : m ≤ k := by omega
    cases hf : flagAt k with
    | false => simp [daemon_thread_runner, hf]
    | true => simp [daemon_thread_runner, hf, hcond, hmk]
  · intro hf
    simp [daemon_thread_runner, hf]

theorem C3_witness :
    daemon_thread_runner 1 (fun _ => true) (fun _ => RunOutcome.exit 3 2) 4 0
        ⟨0, 0, 0⟩ =
      daemon_thread_runner 0 (fun _ => true) (fun _ => RunOutcome.exit 3 2) 4 1
        (iterBody ((fun _ => RunOutcome.exit 3 2) 0) ⟨0, 0, 0⟩).1 ∧
    (iterBody ((fun _ => RunOutcome.exit 3 2) 0) ⟨0, 0, 0⟩).1.restarted =
      (⟨0, 0, 0⟩ : LoopState).restarted + 1 ∧
    (iterBody ((fun _ => RunOutcome.exit 3 2) 0) ⟨0, 0, 0⟩).1.spawns =
      (⟨0, 0, 0⟩ : LoopState).spawns + 1 :=
  (C3_amended_thm 0 (fun _ => true) (fun _ => RunOutcome.exit 3 2) 4 0
    ⟨0, 0, 0⟩ rfl).1 rfl (by decide)

/-- C3, counterexample to the claim as stated: a planned exit still
increments `restartsPerformed`.  Here `stop()` is called during the first
run (the run flag reads true at iteration 0 and false from iteration 1 on,
and the terminated run exits with code 0 after no output): the code
increments the counter to 1 before re-reading the flag, whereas the claim
requires it to stay 0 on a planned exit. -/
theorem C3_counterexample :
    daemon_thread_runner 6 (fun k => k == 0) (fun _ => RunOutcome.exit 0 0) 5 0
        ⟨0, 0, 0⟩ = some ⟨0, 1, 1⟩ ∧
    daemon_thread_runner 6 (fun k => k == 0) (fun _ => RunOutcome.exit 0 0) 5 0
        ⟨0, 0, 0⟩ ≠ some ⟨0, 0, 1⟩ := by
  exact ⟨by decide, by decide⟩

/-- C8: an exception anywhere inside one spawn-and-read run is caught by
the `except Exception` clause of the loop body: the iteration's effective
exit code is the initialiser 0, the restart counter still advances, and
the loop proceeds to the next evaluation step (the flag and budget checks
of iteration `k + 1`) instead of terminating the supervisor. -/
theorem C8_thm (fuel : Nat) (flagAt : Nat → Bool) (outs : Nat → RunOutcome)
    (m : Int) (k : Nat) (st : LoopState) (l : Nat)
    (ho : outs k = RunOutcome.raised l) (hf : flagAt k = true)
    (hm : ¬(0 ≤ m ∧ (k : Int) ≥ m)) :
    daemon_thread_runner (fuel + 1) flagAt outs m k st =
      daemon_thread_runner fuel flagAt outs m (k + 1)
        (iterBody (outs k) st).1 ∧
    (iterBody (outs k) st).2 = 0 ∧
    (iterBody (outs k) st).1.restarted = st.restarted + 1 := by
  refine ⟨?_, ?_, ?_⟩
  · simp [daemon_thread_runner, hf, hm]
  · simp [iterBody, ho]
  · simp [iterBody, ho]

theorem C8_witness :
    daemon_thread_runner 1 (fun _ => true) (fun _ => RunOutcome.raised 2)
        (-1) 0 ⟨0, 0, 0⟩ =
      daemon_thread_runner 0 (fun _ => true) (fun _ => RunOutcome.raised 2)
        (-1) 1 (iterBody ((fun _ => RunOutcome.raised 2) 0) ⟨0, 0, 0⟩).1 ∧
    (iterBody ((fun _ => RunOutcome.raised 2) 0) ⟨0, 0, 0⟩).2 = 0 ∧
    (iterBody ((fun _ => RunOutcome.raised 2) 0) ⟨0, 0, 0⟩).1.restarted =
      (⟨0, 0, 0⟩ : LoopState).restarted + 1 :=
  C8_thm 0 (fun _ => true) (fun _ => RunOutcome.raised 2) (-1) 0 ⟨0, 0, 0⟩ 2
    rfl rfl (by decide)

/-- C5, counterexample to the claim as stated: the record constructor is
not total.  The line below matches `LOG_REGEX` (its timestamp field is
made of digits in the right positions), but month 13 denotes no calendar
datetime, so pydantic's `datetime` validation of the captured `time`
group raises and the parse of this line raises instead of producing a
record. -/
theorem C5_counterexample :
    mkProcessLog ("[2024-13-01 00:00:00] [INFO]: x") = Except.error () := by
  decide

/-- C5, amended: for every line that does not match the grammar, the
parser returns a record with `raw` preserved, the timestamp defaulted to
capture time, and level and message absent; for every line of the grammar
`[YYYY-MM-DD HH:MM:SS] [LEVEL]: message` (digit timestamp fields, a
nonempty uppercase level, a newline-free message) whose timestamp denotes
a valid calendar datetime, it returns a record whose timestamp, level and
message equal the captured groups; but for a grammar line whose timestamp
digits denote no valid calendar datetime, record construction raises. -/
theorem C5_amended_thm :
    (∀ s : String, parseLogLine s = none →
      mkProcessLog s = Except.ok ⟨s, LogTime.captureTime, none, none⟩) ∧
    (∀ y mo dy hr mi se lvl msg : List Char,
      y.length = 4 → mo.length = 2 → dy.length = 2 → hr.length = 2 →
      mi.length = 2 → se.length = 2 →
      (∀ c ∈ y, c.isDigit = true) → (∀ c ∈ mo, c.isDigit = true) →
      (∀ c ∈ dy, c.isDigit = true) → (∀ c ∈ hr, c.isDigit = true) →
      (∀ c ∈ mi, c.isDigit = true) → (∀ c ∈ se, c.isDigit = true) →
      lvl ≠ [] → (∀ c ∈ lvl, c.isUpper = true) → '\n' ∉ msg →
      (validTimestamp ⟨digitsVal y, digitsVal mo, digitsVal dy, digitsVal hr,
          digitsVal mi, digitsVal se⟩ = true →
        mkProcessLog (String.mk (grammarLine y mo dy hr mi se lvl msg)) =
          Except.ok ⟨String.mk (grammarLine y mo dy hr mi se lvl msg),
            LogTime.given ⟨digitsVal y, digitsVal mo, digitsVal dy,
              digitsVal hr, digitsVal mi, digitsVal se⟩,
            some (String.mk lvl), some (String.mk msg)⟩) ∧
      (validTimestamp ⟨digitsVal y, digitsVal mo, digitsVal dy, digitsVal hr,
          digitsVal mi, digitsVal se⟩ = false →
        mkProcessLog (String.mk (grammarLine y mo dy hr mi se lvl msg)) =
          Except.error ())) := by
  constructor
  · intro s hp
    simp [mkProcessLog, hp]
  · intro y mo dy hr mi se lvl msg ly lmo ldy lhr lmi lse gy gmo gdy ghr
      gmi gse hne hup hnl
    have hp : parseLogLine (String.mk (grammarLine y mo dy hr mi se lvl msg)) =
        some (⟨digitsVal y, digitsVal mo, digitsVal dy, digitsVal hr,
          digitsVal mi, digitsVal se⟩, String.mk lvl, String.mk msg) :=
      parseLineChars_grammarLine y mo dy hr mi se lvl msg ly lmo ldy lhr
        lmi lse gy gmo gdy ghr gmi gse hne hup hnl
    constructor
    · intro hv
      simp [mkProcessLog, hp, hv]
    · intro hv
      simp [mkProcessLog, hp, hv]

theorem C5_witness :
    mkProcessLog ("") =
      Except.ok ⟨"", LogTime.captureTime, none, none⟩ ∧
    mkProcessLog (String.mk (grammarLine ['2', '0', '2', '4'] ['0', '1']
        ['0', '1'] ['0', '0'] ['0', '0'] ['0', '0'] ['I', 'N', 'F', 'O']
        ['r', 'e', 'a', 'd', 'y'])) =
      Except.ok ⟨String.mk (grammarLine ['2', '0', '2', '4'] ['0', '1']
          ['0', '1'] ['0', '0'] ['0', '0'] ['0', '0'] ['I', 'N', 'F', 'O']
          ['r', 'e', 'a', 'd', 'y']),
        LogTime.given ⟨digitsVal ['2', '0', '2', '4'], digitsVal ['0', '1'],
          digitsVal ['0', '1'], digitsVal ['0', '0'], digitsVal ['0', '0'],
          digitsVal ['0', '0']⟩,
        some (String.mk ['I', 'N', 'F', 'O']),
        some (String.mk ['r', 'e', 'a', 'd', 'y'])⟩ :=
  ⟨C5_amended_thm.1 ("") rfl,
    (C5_amended_thm.2 ['2', '0', '2', '4'] ['0', '1'] ['0', '1'] ['0', '0']
      ['0', '0'] ['0', '0'] ['I', 'N', 'F', 'O'] ['r', 'e', 'a', 'd', 'y']
      rfl rfl rfl rfl rfl rfl (by decide) (by decide) (by decide) (by decide)
      (by decide) (by decide) (by decide) (by decide) (by decide)).1
      (by decide)⟩

/-- C9, counterexample to the claim as stated: `LOG_REGEX` captures any
nonempty uppercase word as the level, so a constructed record can carry a
level outside the enumerated set `LOG_LEVELS` — here `TRACE`.  (The set
`LOG_LEVELS` is consulted only by the operator-console forwarding
listener, not by record construction.) -/
theorem C9_counterexample :
    mkProcessLog ("[2024-01-01 00:00:00] [TRACE]: boot") =
      Except.ok ⟨"[2024-01-01 00:00:00] [TRACE]: boot",
        LogTime.given ⟨2024, 1, 1, 0, 0, 0⟩, some ("TRACE"), some ("boot")⟩ ∧
    "TRACE" ∉ LOG_LEVELS := by
  constructor
  · decide
  · decide

/-- C9, amended: every record the parser constructs has a level that is
either absent (non-matching line) or a nonempty all-uppercase word — the
level group of the regex — but it is not restricted to the enumerated set
`LOG_LEVELS`. -/
theorem C9_amended_thm (s : String) (record : ProcessLog)
    (h : mkProcessLog s = Except.ok record) :
    record.level = none ∨
    ∃ lvl : String, record.level = some lvl ∧ lvl.data ≠ [] ∧
      ∀ c ∈ lvl.data, c.isUpper = true := by
  unfold mkProcessLog at h
  split at h
  · left
    obtain rfl : (⟨s, LogTime.captureTime, none, none⟩ : ProcessLog) =
        record := by simpa using h
    rfl
  · rename_i t lvl msg heq
    split at h
    · right
      obtain rfl : (⟨s, LogTime.given t, some lvl, some msg⟩ : ProcessLog) =
          record := by simpa using h
      have hu := parseLogLine_level_upper s t lvl msg heq
      exact ⟨lvl, rfl, hu.1, hu.2⟩
    · simp at h

theorem C9_witness :
    (⟨"[2024-01-01 00:00:00] [INFO]: ready",
        LogTime.given ⟨2024, 1, 1, 0, 0, 0⟩, some ("INFO"),
        some ("ready")⟩ : ProcessLog).level = none ∨
    ∃ lvl : String,
      (⟨"[2024-01-01 00:00:00] [INFO]: ready",
          LogTime.given ⟨2024, 1, 1, 0, 0, 0⟩, some ("INFO"),
          some ("ready")⟩ : ProcessLog).level = some lvl ∧
      lvl.data ≠ [] ∧ ∀ c ∈ lvl.data, c.isUpper = true :=
  C9_amended_thm ("[2024-01-01 00:00:00] [INFO]: ready")
    ⟨"[2024-01-01 00:00:00] [INFO]: ready",
      LogTime.given ⟨2024, 1, 1, 0, 0, 0⟩, some ("INFO"), some ("ready")⟩
    (by decide)

